import Mathlib

set_option autoImplicit false

/-!
Verification of the Axiom compiler front-end (lexer, Pratt parser, semantic
analyzer) against its natural-language specification.  The definitions below
are a shallow embedding of the C++ sources: `types.hpp`/`types.cpp` (semantic
types), `token.hpp` (tokens), `lexer.cpp` (the indentation-sensitive lexer),
`parser.cpp` (the Pratt expression parser), `symbol_table.cpp` and
`type_checker.cpp` (the semantic analyzer).  C++ mutation is modelled by
explicit state passing; `std::shared_ptr` values are modelled by value
(`clone` becomes the identity); machine integers are `Nat`/`Int` with the
relevant bounds made explicit.
-/

namespace Ax

/-! ## Semantic types (`types.hpp` / `types.cpp`) -/

/-- Mirror of `enum class TypeKind` from `types.hpp`, in declaration order
(the order matters: `is_integer` and `is_primitive` compare kinds by their
position in this enumeration). -/
inductive TypeKind where
  | Void | Bool | Int8 | Int16 | Int32 | Int64
  | UInt8 | UInt16 | UInt32 | UInt64
  | Float32 | Float64 | Char | String
  | Array | List | Dict | Tuple | Function | Struct | Class | Enum | Trait
  | Reference | Optional | Result | Generic | TypeVar | Never | Unknown
deriving DecidableEq

/-- Position of a `TypeKind` in the C++ enumeration (its underlying integer
value), used for the ordered comparisons `kind >= Int8 && kind <= UInt64`
in `SemanticType::is_integer` and friends. -/
def TypeKind.toIdx : TypeKind → Nat
  | .Void => 0 | .Bool => 1
  | .Int8 => 2 | .Int16 => 3 | .Int32 => 4 | .Int64 => 5
  | .UInt8 => 6 | .UInt16 => 7 | .UInt32 => 8 | .UInt64 => 9
  | .Float32 => 10 | .Float64 => 11 | .Char => 12 | .String => 13
  | .Array => 14 | .List => 15 | .Dict => 16 | .Tuple => 17
  | .Function => 18 | .Struct => 19 | .Class => 20 | .Enum => 21 | .Trait => 22
  | .Reference => 23 | .Optional => 24 | .Result => 25
  | .Generic => 26 | .TypeVar => 27 | .Never => 28 | .Unknown => 29

/-- Kinds of the base-class `SemanticType` instances that the program
actually constructs.  All base (non-derived) `SemanticType` objects are
created through `make_primitive` in `types.cpp` (the sixteen singleton
accessors `void_type()` … `unknown_type()`), so their kind is always one of
these; every other kind belongs to a derived class. -/
inductive PrimKind where
  | Void | Bool | Int8 | Int16 | Int32 | Int64
  | UInt8 | UInt16 | UInt32 | UInt64
  | Float32 | Float64 | Char | String | Never | Unknown
deriving DecidableEq

/-- The `TypeKind` stored in a base `SemanticType` singleton. -/
def PrimKind.toKind : PrimKind → TypeKind
  | .Void => .Void | .Bool => .Bool
  | .Int8 => .Int8 | .Int16 => .Int16 | .Int32 => .Int32 | .Int64 => .Int64
  | .UInt8 => .UInt8 | .UInt16 => .UInt16 | .UInt32 => .UInt32 | .UInt64 => .UInt64
  | .Float32 => .Float32 | .Float64 => .Float64 | .Char => .Char | .String => .String
  | .Never => .Never | .Unknown => .Unknown

/-- Shallow embedding of the `SemanticType` class hierarchy from `types.hpp`,
one constructor per concrete class.  `prim` covers the base-class singletons
(`void_type()` … `unknown_type()`), carrying the `kind` and `name` members.
Fields that no function under verification ever reads (`TraitType::methods`,
`StructType::type_args`, the `is_mutable` member of the base class — they are
only copied by `clone`, which is the identity in this by-value embedding)
are omitted. -/
inductive Ty where
  | prim (kind : PrimKind) (name : String)
  | array (elem : Ty) (size : Option Nat)
  | list (elem : Ty)
  | dict (key value : Ty)
  | tuple (elems : List Ty)
  | fn (params : List Ty) (ret : Ty) (isAsync : Bool)
  | ref (inner : Ty) (isMut : Bool)
  | optional (inner : Ty)
  | res (okTy errTy : Ty)
  | strct (name : String) (fields : List (String × Ty × Bool)) (typeParams : List String)
  | cls (name : String) (fields : List (String × Ty × Bool)) (baseClass : Option String)
      (typeParams : List String)
  | enum (name : String) (variants : List (String × List Ty)) (typeParams : List String)
  | trait (name : String) (typeParams : List String)
  | generic (name : String) (constraints : List Ty)
  | tyvar (id : Nat) (resolved : Option Ty)

/-- The `kind` member of a `SemanticType`: each derived class fixes it in its
constructor (`ArrayType` → `Array`, …); base instances carry their own. -/
def Ty.kind : Ty → TypeKind
  | .prim k _ => k.toKind
  | .array _ _ => .Array
  | .list _ => .List
  | .dict _ _ => .Dict
  | .tuple _ => .Tuple
  | .fn _ _ _ => .Function
  | .ref _ _ => .Reference
  | .optional _ => .Optional
  | .res _ _ => .Result
  | .strct _ _ _ => .Struct
  | .cls _ _ _ _ => .Class
  | .enum _ _ _ => .Enum
  | .trait _ _ => .Trait
  | .generic _ _ => .Generic
  | .tyvar _ _ => .TypeVar

/-- The `name` member of a `SemanticType`.  Derived classes other than the
user-defined/generic ones leave it at the default `""`. -/
def Ty.tyname : Ty → String
  | .prim _ n => n
  | .strct n _ _ => n
  | .cls n _ _ _ => n
  | .enum n _ _ => n
  | .trait n _ => n
  | .generic n _ => n
  | _ => ""

/-- `SemanticType::is_integer`: `kind >= TypeKind::Int8 && kind <= TypeKind::UInt64`. -/
def Ty.is_integer (t : Ty) : Bool :=
  TypeKind.toIdx .Int8 ≤ t.kind.toIdx && t.kind.toIdx ≤ TypeKind.toIdx .UInt64

/-- `SemanticType::is_float`: `kind == Float32 || kind == Float64`. -/
def Ty.is_float (t : Ty) : Bool :=
  t.kind == .Float32 || t.kind == .Float64

/-- `SemanticType::is_numeric`: `is_integer() || is_float()`. -/
def Ty.is_numeric (t : Ty) : Bool :=
  t.is_integer || t.is_float

/-- `SemanticType::is_primitive`: `kind >= TypeKind::Void && kind <= TypeKind::String`. -/
def Ty.is_primitive (t : Ty) : Bool :=
  TypeKind.toIdx .Void ≤ t.kind.toIdx && t.kind.toIdx ≤ TypeKind.toIdx .String

/-- Singleton `void_type()` from `types.cpp`. -/
def void_type : Ty := .prim .Void "void"

/-- Singleton `bool_type()`. -/
def bool_type : Ty := .prim .Bool "bool"

/-- Singleton `i8_type()`. -/
def i8_type : Ty := .prim .Int8 "i8"

/-- Singleton `i16_type()`. -/
def i16_type : Ty := .prim .Int16 "i16"

/-- Singleton `i32_type()`. -/
def i32_type : Ty := .prim .Int32 "i32"

/-- Singleton `i64_type()`. -/
def i64_type : Ty := .prim .Int64 "i64"

/-- Singleton `u8_type()`. -/
def u8_type : Ty := .prim .UInt8 "u8"

/-- Singleton `u16_type()`. -/
def u16_type : Ty := .prim .UInt16 "u16"

/-- Singleton `u32_type()`. -/
def u32_type : Ty := .prim .UInt32 "u32"

/-- Singleton `u64_type()`. -/
def u64_type : Ty := .prim .UInt64 "u64"

/-- Singleton `f32_type()`. -/
def f32_type : Ty := .prim .Float32 "f32"

/-- Singleton `f64_type()`. -/
def f64_type : Ty := .prim .Float64 "f64"

/-- Singleton `char_type()`. -/
def char_type : Ty := .prim .Char "char"

/-- Singleton `string_type()` (named `"str"`). -/
def string_type : Ty := .prim .String "str"

/-- Singleton `never_type()` (named `"!"`). -/
def never_type : Ty := .prim .Never "!"

/-- Singleton `unknown_type()` (named `"?"`). -/
def unknown_type : Ty := .prim .Unknown "?"

mutual

/-- The virtual `equals` method of `SemanticType` and its overrides, with the
dynamic dispatch on the first argument made explicit.  The base-class version
compares `kind` and `name`; each derived class first checks the other value's
`kind` and then compares structurally (user-defined types compare by name
only; a `TypeVariable` compares its resolution when both sides are resolved,
otherwise its identity). -/
def tequals : Ty → Ty → Bool
  | .prim k n, o => k.toKind == o.kind && n == o.tyname
  | .array e s, o => match o with
      | .array e2 s2 => tequals e e2 && s == s2
      | _ => false
  | .list e, o => match o with
      | .list e2 => tequals e e2
      | _ => false
  | .dict k v, o => match o with
      | .dict k2 v2 => tequals k k2 && tequals v v2
      | _ => false
  | .tuple es, o => match o with
      | .tuple es2 => es.length == es2.length && tequalsList es es2
      | _ => false
  | .fn ps r a, o => match o with
      | .fn ps2 r2 a2 => ps.length == ps2.length && tequals r r2 && tequalsList ps ps2 && a == a2
      | _ => false
  | .ref i m, o => match o with
      | .ref i2 m2 => tequals i i2 && m == m2
      | _ => false
  | .optional i, o => match o with
      | .optional i2 => tequals i i2
      | _ => false
  | .res okT errT, o => match o with
      | .res ok2 err2 => tequals okT ok2 && tequals errT err2
      | _ => false
  | .strct n _ _, o => match o with
      | .strct n2 _ _ => n == n2
      | _ => false
  | .cls n _ _ _, o => match o with
      | .cls n2 _ _ _ => n == n2
      | _ => false
  | .enum n _ _, o => match o with
      | .enum n2 _ _ => n == n2
      | _ => false
  | .trait n _, o => match o with
      | .trait n2 _ => n == n2
      | _ => false
  | .generic n _, o => match o with
      | .generic n2 _ => n == n2
      | _ => false
  | .tyvar i r, o => match o with
      | .tyvar i2 r2 => match r, r2 with
          | some t1, some t2 => tequals t1 t2
          | _, _ => i == i2
      | _ => false

/-- Element-wise `equals` over the parameter/element vectors (the `for` loops
in `TupleType::equals` and `FunctionType::equals`). -/
def tequalsList : List Ty → List Ty → Bool
  | [], [] => true
  | t :: ts, t2 :: ts2 => tequals t t2 && tequalsList ts ts2
  | _, _ => false

end

/-- `is_assignable(from, to)` from `types.cpp`: same type, `never` to
anything, any integer to any integer (the source comment says "Allow smaller
int to larger int" but the code is `return true;` for every integer pair),
integer to float, recursion through `Optional` targets, and reference
targets (exact inner match when mutable).  The C++ null-pointer guard is
vacuous here because the embedding has no null `TypePtr`. -/
def is_assignable (frm toTy : Ty) : Bool :=
  if tequals frm toTy then true
  else if frm.kind == .Never then true
  else if frm.is_integer && toTy.is_integer then true
  else if frm.is_integer && toTy.is_float then true
  else match toTy with
    | .optional inner => is_assignable frm inner
    | .ref inner m => if m then tequals frm inner else is_assignable frm inner
    | _ => false

/-- `common_type(a, b)` from `types.cpp`: equal types stay, float promotion
to `f64`/`f32`, integer pairs collapse to `i64`, anything else is unknown. -/
def common_type (a b : Ty) : Ty :=
  if tequals a b then a
  else if a.is_float || b.is_float then
    (if a.kind == .Float64 || b.kind == .Float64 then f64_type else f32_type)
  else if a.is_integer && b.is_integer then i64_type
  else unknown_type

/-! ## Tokens (`token.hpp`) -/

/-- Mirror of `enum class TokenType` from `token.hpp`. -/
inductive TokenType where
  | INTEGER | FLOAT | STRING | CHAR | TRUE | FALSE | NONE
  | IDENTIFIER
  | FN | LET | VAR | CONST | STRUCT | CLASS | TRAIT | IMPL | ENUM | TYPE
  | IF | ELSE | ELIF | MATCH | CASE | WHILE | FOR | IN | BREAK | CONTINUE
  | RETURN | YIELD
  | ASYNC | AWAIT | SPAWN
  | IMPORT | FROM | AS | PUB | MUT | SELF | SELF_TYPE | SUPER
  | PLUS | MINUS | STAR | SLASH | PERCENT | POWER
  | EQ | NE | LT | LE | GT | GE
  | AND | OR | NOT
  | AMPERSAND | PIPE | CARET | TILDE | SHL | SHR
  | ASSIGN | PLUS_ASSIGN | MINUS_ASSIGN | STAR_ASSIGN | SLASH_ASSIGN | PERCENT_ASSIGN
  | ARROW | FAT_ARROW | QUESTION | AT | DOUBLE_DOT | TRIPLE_DOT
  | LPAREN | RPAREN | LBRACKET | RBRACKET | LBRACE | RBRACE
  | COMMA | COLON | SEMICOLON | DOT | DOUBLE_COLON
  | NEWLINE | INDENT | DEDENT
  | EOF_TOKEN | ERROR
deriving DecidableEq

/-- Mirror of `struct SourceLocation` from `token.hpp` (filename, 1-based
line and column, byte offset). -/
structure SourceLocation where
  filename : String
  line : Nat
  column : Nat
  offset : Nat
deriving DecidableEq

/-- Mirror of `struct Token`.  The C++ union of `int_value`/`float_value` is
two fields here; only the one matching the token type is meaningful. -/
structure Token where
  type : TokenType
  lexeme : String
  loc : SourceLocation
  int_value : Int := 0
  float_value : Float := 0

/-- The default `Token()` constructor (`ERROR`, empty lexeme). -/
def Token.default : Token :=
  { type := .ERROR, lexeme := "", loc := ⟨"", 1, 1, 0⟩ }

/-- `Token::make_int`. -/
def Token.make_int (value : Int) (lex : String) (loc : SourceLocation) : Token :=
  { type := .INTEGER, lexeme := lex, loc := loc, int_value := value }

/-- `Token::make_float`. -/
def Token.make_float (value : Float) (lex : String) (loc : SourceLocation) : Token :=
  { type := .FLOAT, lexeme := lex, loc := loc, float_value := value }

/-- `Token::make_string`: the lexeme of a string token is the *decoded
value*, not a slice of the source. -/
def Token.make_string (value : String) (loc : SourceLocation) : Token :=
  { type := .STRING, lexeme := value, loc := loc }

/-- `Token::make_error`: the lexeme of an error token is the message. -/
def Token.make_error (message : String) (loc : SourceLocation) : Token :=
  { type := .ERROR, lexeme := message, loc := loc }

/-- `Token::make_eof`. -/
def Token.make_eof (loc : SourceLocation) : Token :=
  { type := .EOF_TOKEN, lexeme := "", loc := loc }

/-! ## Lexer (`lexer.cpp` / `lexer.hpp`) -/

/-- The keyword table `Lexer::KEYWORDS`. -/
def KEYWORDS : List (String × TokenType) :=
  [("fn", .FN), ("let", .LET), ("var", .VAR), ("const", .CONST),
   ("struct", .STRUCT), ("class", .CLASS), ("trait", .TRAIT), ("impl", .IMPL),
   ("enum", .ENUM), ("type", .TYPE),
   ("if", .IF), ("else", .ELSE), ("elif", .ELIF), ("match", .MATCH),
   ("case", .CASE), ("while", .WHILE), ("for", .FOR), ("in", .IN),
   ("break", .BREAK), ("continue", .CONTINUE), ("return", .RETURN), ("yield", .YIELD),
   ("async", .ASYNC), ("await", .AWAIT), ("spawn", .SPAWN),
   ("import", .IMPORT), ("from", .FROM), ("as", .AS), ("pub", .PUB),
   ("mut", .MUT), ("self", .SELF), ("Self", .SELF_TYPE), ("super", .SUPER),
   ("true", .TRUE), ("false", .FALSE), ("None", .NONE),
   ("and", .AND), ("or", .OR), ("not", .NOT)]

/-- `KEYWORDS.find(text)`. -/
def lookupKeyword (s : String) : Option TokenType :=
  (KEYWORDS.find? (fun p => p.1 == s)).map (·.2)

/-- Character classification `Lexer::is_digit`. -/
def isDigitChar (c : Char) : Bool :=
  decide ('0'.toNat ≤ c.toNat ∧ c.toNat ≤ '9'.toNat)

/-- `Lexer::is_alpha`. -/
def isAlphaChar (c : Char) : Bool :=
  decide (('a'.toNat ≤ c.toNat ∧ c.toNat ≤ 'z'.toNat) ∨
          ('A'.toNat ≤ c.toNat ∧ c.toNat ≤ 'Z'.toNat))

/-- `Lexer::is_hex_digit`. -/
def isHexDigitChar (c : Char) : Bool :=
  isDigitChar c ||
  decide (('a'.toNat ≤ c.toNat ∧ c.toNat ≤ 'f'.toNat) ∨
          ('A'.toNat ≤ c.toNat ∧ c.toNat ≤ 'F'.toNat))

/-- `Lexer::is_alphanumeric`. -/
def isAlphanumericChar (c : Char) : Bool :=
  isAlphaChar c || isDigitChar c

/-- `Lexer::is_identifier_start`. -/
def isIdentStartChar (c : Char) : Bool :=
  isAlphaChar c || c == '_'

/-- `Lexer::is_identifier_char`. -/
def isIdentChar (c : Char) : Bool :=
  isAlphanumericChar c || c == '_'

/-- Numeric value of a digit character (used by the `from_chars` model). -/
def digitVal (c : Char) : Nat :=
  if '0'.toNat ≤ c.toNat ∧ c.toNat ≤ '9'.toNat then c.toNat - '0'.toNat
  else if 'a'.toNat ≤ c.toNat ∧ c.toNat ≤ 'f'.toNat then c.toNat - 'a'.toNat + 10
  else if 'A'.toNat ≤ c.toNat ∧ c.toNat ≤ 'F'.toNat then c.toNat - 'A'.toNat + 10
  else 0

/-- Valid digit in the given base (2, 8, 10 or 16). -/
def isBaseDigit (base : Nat) (c : Char) : Bool :=
  isHexDigitChar c && decide (digitVal c < base)

/-- Model of `std::from_chars` on an integer-literal slice in the given base:
consume the leading run of valid digits; an empty run is `invalid_argument`
and a value above `INT64_MAX` is `result_out_of_range`, both mapped to
`none` (the call sites only test `ec != std::errc()`). -/
def fromCharsInt (cs : List Char) (base : Nat) : Option Int :=
  let ds := cs.takeWhile (fun c => isBaseDigit base c)
  if ds.isEmpty then none
  else
    let v := ds.foldl (fun acc c => acc * base + digitVal c) 0
    if v ≤ 2 ^ 63 - 1 then some (Int.ofNat v) else none

/-- Numeric payload of a float literal.  The C++ parses the slice with
`std::from_chars` into a `double`; exact IEEE rounding and the
out-of-range case are not modelled (no claim consults `float_value`), but
the value is assembled from the same mantissa/exponent reading, and on this
lexer's float grammar (which always starts with a digit or `.digit`) the
parse succeeds. -/
def floatOfChars (cs : List Char) : Float :=
  let intPart := cs.takeWhile isDigitChar
  let rest := cs.drop intPart.length
  let fracPart :=
    match rest with
    | '.' :: r => r.takeWhile isDigitChar
    | _ => []
  let rest2 :=
    match rest with
    | '.' :: r => r.drop (r.takeWhile isDigitChar).length
    | _ => rest
  let expPair : Bool × List Char :=
    match rest2 with
    | 'e' :: '-' :: r => (true, r.takeWhile isDigitChar)
    | 'e' :: '+' :: r => (false, r.takeWhile isDigitChar)
    | 'e' :: r => (false, r.takeWhile isDigitChar)
    | 'E' :: '-' :: r => (true, r.takeWhile isDigitChar)
    | 'E' :: '+' :: r => (false, r.takeWhile isDigitChar)
    | 'E' :: r => (false, r.takeWhile isDigitChar)
    | _ => (false, [])
  let m := (intPart ++ fracPart).foldl (fun acc c => acc * 10 + digitVal c) 0
  let expMag : Int := Int.ofNat (expPair.2.foldl (fun acc c => acc * 10 + digitVal c) 0)
  let e : Int := (if expPair.1 then -expMag else expMag) - Int.ofNat fracPart.length
  if e < 0 then Float.ofScientific m true (-e).toNat else Float.ofScientific m false e.toNat

/-- Mutable state of `class Lexer` (`lexer.hpp`): source view, cursor,
line/column bookkeeping, the indentation stack (head is the top), the
pending-DEDENT counter (`int`, also used as the `-1` INDENT signal), the
line-start flag, the one-token peek cache, and the error list. -/
structure LexState where
  source : List Char
  filename : String
  start : Nat
  current : Nat
  line : Nat
  column : Nat
  lineStart : Nat
  indentStack : List Nat
  pendingDedents : Int
  atLineStart : Bool
  hasPeeked : Bool
  peeked : Token
  errors : List Token

/-- The `Lexer` constructor: cursor at 0, line/column 1, indentation stack
seeded with 0. -/
def mkLexer (src : List Char) (filename : String) : LexState :=
  { source := src, filename := filename, start := 0, current := 0,
    line := 1, column := 1, lineStart := 0, indentStack := [0],
    pendingDedents := 0, atLineStart := true, hasPeeked := false,
    peeked := Token.default, errors := [] }

/-- `Lexer::is_at_end`. -/
def LexState.isAtEnd (st : LexState) : Bool :=
  decide (st.source.length ≤ st.current)

/-- `Lexer::peek`. -/
def LexState.peekc (st : LexState) : Char :=
  if st.isAtEnd then '\x00' else st.source.getD st.current '\x00'

/-- `Lexer::peek_next`. -/
def LexState.peekNext (st : LexState) : Char :=
  if st.source.length ≤ st.current + 1 then '\x00' else st.source.getD (st.current + 1) '\x00'

/-- `Lexer::advance`: consume one character, updating line/column; a newline
starts a new line.  (The C++ reads `source_[current_++]` unchecked; every
call site has already ruled out end-of-input, and the embedding totalises
the read with a NUL default.) -/
def LexState.advancec (st : LexState) : Char × LexState :=
  let c := st.source.getD st.current '\x00'
  if c = '\n' then
    (c, { st with current := st.current + 1, line := st.line + 1,
                  lineStart := st.current + 1, column := 1 })
  else
    (c, { st with current := st.current + 1, column := st.column + 1 })

/-- `Lexer::match`. -/
def LexState.matchc (st : LexState) (expected : Char) : Bool × LexState :=
  if st.isAtEnd then (false, st)
  else if st.source.getD st.current '\x00' ≠ expected then (false, st)
  else (true, (st.advancec).2)

/-- The slice `source_.substr(a, b - a)` as a character list. -/
def listExtract (s : List Char) (a b : Nat) : List Char :=
  (s.drop a).take (b - a)

/-- `Lexer::make_token(type, lexeme)`: explicit lexeme, location at
`(line, column - lexeme.size, start)`. -/
def LexState.makeTokenWith (st : LexState) (ty : TokenType) (lexeme : String) : Token :=
  { type := ty, lexeme := lexeme,
    loc := ⟨st.filename, st.line, st.column - lexeme.length, st.start⟩ }

/-- `Lexer::make_token(type)`: lexeme is the slice from `start_` to
`current_`. -/
def LexState.makeToken (st : LexState) (ty : TokenType) : Token :=
  st.makeTokenWith ty (String.mk (listExtract st.source st.start st.current))

/-- `Lexer::error_token`: build an ERROR token at the current position and
push it onto the error list (the token is also the return value). -/
def LexState.errorToken (st : LexState) (message : String) : Token × LexState :=
  let loc : SourceLocation := ⟨st.filename, st.line, st.column, st.current⟩
  let err := Token.make_error message loc
  (err, { st with errors := st.errors ++ [err] })

/-- Generic fuelled form of the `while (pred(peek())) advance();` loops. -/
def advanceWhile : Nat → (Char → Bool) → LexState → LexState
  | 0, _, st => st
  | fuel + 1, p, st =>
    if p st.peekc then advanceWhile fuel p (st.advancec).2 else st

/-- `Lexer::skip_line_comment`. -/
def skipLineComment : Nat → LexState → LexState
  | 0, st => st
  | fuel + 1, st =>
    if ¬ st.isAtEnd ∧ st.peekc ≠ '\n' then skipLineComment fuel (st.advancec).2 else st

/-- The loop of `Lexer::skip_whitespace_inline` (spaces, tabs, carriage
returns, and backslash-newline line continuations). -/
def skipWsLoop : Nat → LexState → LexState
  | 0, st => st
  | fuel + 1, st =>
    if st.isAtEnd then st
    else
      let c := st.peekc
      if c = ' ' ∨ c = '\t' ∨ c = '\r' then skipWsLoop fuel (st.advancec).2
      else if c = '\\' ∧ st.peekNext = '\n' then
        skipWsLoop fuel (((st.advancec).2).advancec).2
      else st

/-- `Lexer::skip_whitespace_inline`: the loop, then `start_ = current_`. -/
def skipWhitespaceInline (fuel : Nat) (st : LexState) : LexState :=
  let st := skipWsLoop fuel st
  { st with start := st.current }

/-- `Lexer::scan_identifier`: extend over identifier characters, then decide
keyword vs identifier. -/
def scanIdentifier (fuel : Nat) (st : LexState) : Token × LexState :=
  let st := advanceWhile fuel isIdentChar st
  let text := String.mk (listExtract st.source st.start st.current)
  match lookupKeyword text with
  | some ty => (st.makeToken ty, st)
  | none => (st.makeToken .IDENTIFIER, st)

/-- Shared tail of the three based-integer branches of `Lexer::scan_number`:
extract the slice, parse it after the two-character prefix, and produce
either the INTEGER token or the branch's error token. -/
def basedIntToken (st : LexState) (base : Nat) (errMsg : String) : Token × LexState :=
  let text := listExtract st.source st.start st.current
  match fromCharsInt (text.drop 2) base with
  | none => st.errorToken errMsg
  | some value =>
      let loc : SourceLocation :=
        ⟨st.filename, st.line, st.column - text.length, st.start⟩
      (Token.make_int value (String.mk text) loc, st)

/-- `Lexer::scan_number`. -/
def scanNumber (fuel : Nat) (st : LexState) : Token × LexState :=
  -- hex/binary/octal prefixes (only when the token starts with '0')
  if st.source.getD st.start '\x00' = '0' ∧ st.current < st.source.length ∧
      (st.peekc = 'x' ∨ st.peekc = 'X') then
    let st := (st.advancec).2
    let st := advanceWhile fuel isHexDigitChar st
    basedIntToken st 16 "Invalid hexadecimal literal"
  else if st.source.getD st.start '\x00' = '0' ∧ st.current < st.source.length ∧
      (st.peekc = 'b' ∨ st.peekc = 'B') then
    let st := (st.advancec).2
    let st := advanceWhile fuel (fun c => c == '0' || c == '1') st
    basedIntToken st 2 "Invalid binary literal"
  else if st.source.getD st.start '\x00' = '0' ∧ st.current < st.source.length ∧
      (st.peekc = 'o' ∨ st.peekc = 'O') then
    let st := (st.advancec).2
    let st := advanceWhile fuel (fun c => decide ('0'.toNat ≤ c.toNat ∧ c.toNat ≤ '7'.toNat)) st
    basedIntToken st 8 "Invalid octal literal"
  else
    -- decimal integer or float
    let st := advanceWhile fuel isDigitChar st
    let isFloatFrac : Bool := st.peekc == '.' && isDigitChar st.peekNext
    let st := if isFloatFrac then advanceWhile fuel isDigitChar ((st.advancec).2) else st
    let isFloat : Bool := isFloatFrac || (st.peekc == 'e' || st.peekc == 'E')
    let st :=
      if st.peekc == 'e' || st.peekc == 'E' then
        let st := (st.advancec).2
        let st := if st.peekc == '+' || st.peekc == '-' then (st.advancec).2 else st
        advanceWhile fuel isDigitChar st
      else st
    let text := listExtract st.source st.start st.current
    let loc : SourceLocation := ⟨st.filename, st.line, st.column - text.length, st.start⟩
    if isFloat then
      (Token.make_float (floatOfChars text) (String.mk text) loc, st)
    else
      match fromCharsInt text 10 with
      | none => st.errorToken "Invalid integer literal"
      | some value => (Token.make_int value (String.mk text) loc, st)

/-- One outcome of the `scan_string` body loop: an early error return, or
the accumulated decoded value together with the `closed` flag. -/
inductive StrScan where
  | fail (t : Token) (st : LexState)
  | done (value : List Char) (closed : Bool) (st : LexState)

/-- The escape decoding switch inside the `scan_string` loop: `\n`, `\t`,
`\r`, `\\`, quotes and `\0` decode; any other escape keeps the backslash
and the character. -/
def decodeEscape (escaped : Char) : List Char :=
  if escaped = 'n' then ['\n']
  else if escaped = 't' then ['\t']
  else if escaped = 'r' then ['\r']
  else if escaped = '\\' then ['\\']
  else if escaped = '\'' then ['\'']
  else if escaped = '"' then ['"']
  else if escaped = '0' then ['\x00']
  else ['\\', escaped]

/-- The body loop of `Lexer::scan_string`, accumulating the decoded value
(escape sequences are decoded; unknown escapes keep the backslash). -/
def scanStringLoop : Nat → Char → Bool → List Char → LexState → StrScan
  | 0, _, _, value, st => .done value false st
  | fuel + 1, quote, triple, value, st =>
    if st.isAtEnd then .done value false st
    else
      let c := st.peekc
      -- triple-quoted closing check
      if triple ∧ c = quote ∧ st.peekNext = quote then
        let st := (st.advancec).2
        if st.peekc = quote then
          let st := (st.advancec).2
          let st := (st.advancec).2
          .done value true st
        else
          scanStringLoop fuel quote triple (value ++ [c]) st
      else if ¬ triple ∧ c = quote then
        .done value true (st.advancec).2
      else if ¬ triple ∧ c = '\n' then
        .fail (st.errorToken "Unterminated string literal").1
          (st.errorToken "Unterminated string literal").2
      else if c = '\\' then
        let st := (st.advancec).2
        if st.isAtEnd then
          .fail (st.errorToken "Unterminated string literal").1
            (st.errorToken "Unterminated string literal").2
        else
          let escaped := (st.advancec).1
          scanStringLoop fuel quote triple (value ++ decodeEscape escaped) (st.advancec).2
      else
        let c2 := (st.advancec).1
        scanStringLoop fuel quote triple (value ++ [c2]) (st.advancec).2

/-- `Lexer::scan_string`: detect a triple-quote opener, run the body loop,
and finish with the STRING token at
`(line, column - value.size - 2, start)` — or an unterminated-string
error. -/
def scanString (fuel : Nat) (quote : Char) (st : LexState) : Token × LexState :=
  let triple : Bool := st.peekc == quote && st.peekNext == quote
  let st := if triple then ((st.advancec).2.advancec).2 else st
  match scanStringLoop fuel quote triple [] st with
  | .fail t st => (t, st)
  | .done value closed st =>
      if closed then
        let loc : SourceLocation :=
          ⟨st.filename, st.line, st.column - (value.length + 2), st.start⟩
        (Token.make_string (String.mk value) loc, st)
      else
        st.errorToken "Unterminated string literal"

/-- `Lexer::scan_fstring`: skip the `f` prefix quote character and lex a
plain string (unreachable from `scan_token`, which classifies `f` as an
identifier first; kept for fidelity). -/
def scanFString (fuel : Nat) (st : LexState) : Token × LexState :=
  let quote := (st.advancec).1
  scanString fuel quote (st.advancec).2

/-- The indentation-counting inner loop of `Lexer::handle_indentation`
(spaces count 1, tabs count 4). -/
def countIndentLoop : Nat → Nat → LexState → Nat × LexState
  | 0, acc, st => (acc, st)
  | fuel + 1, acc, st =>
    if st.peekc = ' ' then countIndentLoop fuel (acc + 1) (st.advancec).2
    else if st.peekc = '\t' then countIndentLoop fuel (acc + 4) (st.advancec).2
    else (acc, st)

/-- The DEDENT pop loop: pop while the stack top exceeds the new width,
counting the pops. -/
def popDedents (indent : Nat) : List Nat → List Nat × Nat
  | [] => ([], 0)
  | top :: rest =>
      if indent < top then
        let (s, n) := popDedents indent rest
        (s, n + 1)
      else (top :: rest, 0)

/-- The outer skip-blank-lines loop of `Lexer::handle_indentation` together
with the indent/dedent decision.  On an indentation increase it pushes the
new width and sets `pending_dedents_ = -1` (the "emit INDENT" signal); on a
decrease it pops, counts DEDENTs and — when the remaining top does not match
— records the inconsistent-indentation error token *and* pushes it a second
time (`errors_.push_back(error_token(...))`, where `error_token` itself
already appended it). -/
def handleIndentLoop : Nat → LexState → LexState
  | 0, st => st
  | fuel + 1, st =>
    if st.isAtEnd then st
    else
      let (indent, st) := countIndentLoop (fuel + 1) 0 st
      if st.peekc = '\n' then handleIndentLoop fuel (st.advancec).2
      else
        let isComment := st.peekc = '#'
        let st := if st.peekc = '#' then skipLineComment (fuel + 1) st else st
        if isComment ∧ st.peekc = '\n' then handleIndentLoop fuel (st.advancec).2
        else
          let currentIndent := st.indentStack.headD 0
          if currentIndent < indent then
            { st with indentStack := indent :: st.indentStack,
                      start := st.current, pendingDedents := -1 }
          else if indent < currentIndent then
            let (newStack, pops) := popDedents indent st.indentStack
            let st := { st with indentStack := newStack,
                                pendingDedents := st.pendingDedents + Int.ofNat pops }
            if newStack ≠ [] ∧ newStack.headD 0 ≠ indent then
              let (tok, st) := st.errorToken "Inconsistent indentation"
              { st with errors := st.errors ++ [tok] }
            else st
          else st

/-- `Lexer::handle_indentation`: clear the line-start flag, run the loop,
then convert the `-1` INDENT signal back to `0` — the signal never escapes
this function, which is why the lexer never actually emits an INDENT
token. -/
def handleIndentation (fuel : Nat) (st : LexState) : LexState :=
  let st := { st with atLineStart := false }
  let st := handleIndentLoop fuel st
  if st.pendingDedents = -1 then { st with pendingDedents := 0, start := st.current }
  else st

/-- The operator/punctuation switch of `Lexer::scan_token` (everything from
the single-character delimiters to the default unexpected-character error),
for a consumed first character `c`.  Multi-character operators use
longest-match via `match`; a bare `!` is a lex error.  (The `#` comment case
of the switch lives in `scanToken` itself because it re-enters the
scanner.) -/
def scanOperator (c : Char) (st : LexState) : Token × LexState :=
  if c = '(' then (st.makeToken .LPAREN, st)
  else if c = ')' then (st.makeToken .RPAREN, st)
  else if c = '[' then (st.makeToken .LBRACKET, st)
  else if c = ']' then (st.makeToken .RBRACKET, st)
  else if c = '{' then (st.makeToken .LBRACE, st)
  else if c = '}' then (st.makeToken .RBRACE, st)
  else if c = ',' then (st.makeToken .COMMA, st)
  else if c = ';' then (st.makeToken .SEMICOLON, st)
  else if c = '~' then (st.makeToken .TILDE, st)
  else if c = '@' then (st.makeToken .AT, st)
  else if c = '?' then (st.makeToken .QUESTION, st)
  else if c = '+' then
    let m := (st.matchc '=').1
    let st := (st.matchc '=').2
    if m then (st.makeToken .PLUS_ASSIGN, st) else (st.makeToken .PLUS, st)
  else if c = '-' then
    let m1 := (st.matchc '>').1
    let st := (st.matchc '>').2
    if m1 then (st.makeToken .ARROW, st)
    else
      let m2 := (st.matchc '=').1
      let st := (st.matchc '=').2
      if m2 then (st.makeToken .MINUS_ASSIGN, st) else (st.makeToken .MINUS, st)
  else if c = '*' then
    let m1 := (st.matchc '*').1
    let st := (st.matchc '*').2
    if m1 then (st.makeToken .POWER, st)
    else
      let m2 := (st.matchc '=').1
      let st := (st.matchc '=').2
      if m2 then (st.makeToken .STAR_ASSIGN, st) else (st.makeToken .STAR, st)
  else if c = '/' then
    let m := (st.matchc '=').1
    let st := (st.matchc '=').2
    if m then (st.makeToken .SLASH_ASSIGN, st) else (st.makeToken .SLASH, st)
  else if c = '%' then
    let m := (st.matchc '=').1
    let st := (st.matchc '=').2
    if m then (st.makeToken .PERCENT_ASSIGN, st) else (st.makeToken .PERCENT, st)
  else if c = '=' then
    let m1 := (st.matchc '>').1
    let st := (st.matchc '>').2
    if m1 then (st.makeToken .FAT_ARROW, st)
    else
      let m2 := (st.matchc '=').1
      let st := (st.matchc '=').2
      if m2 then (st.makeToken .EQ, st) else (st.makeToken .ASSIGN, st)
  else if c = '!' then
    let m := (st.matchc '=').1
    let st := (st.matchc '=').2
    if m then (st.makeToken .NE, st)
    else st.errorToken "Unexpected character '!'"
  else if c = '<' then
    let m1 := (st.matchc '<').1
    let st := (st.matchc '<').2
    if m1 then (st.makeToken .SHL, st)
    else
      let m2 := (st.matchc '=').1
      let st := (st.matchc '=').2
      if m2 then (st.makeToken .LE, st) else (st.makeToken .LT, st)
  else if c = '>' then
    let m1 := (st.matchc '>').1
    let st := (st.matchc '>').2
    if m1 then (st.makeToken .SHR, st)
    else
      let m2 := (st.matchc '=').1
      let st := (st.matchc '=').2
      if m2 then (st.makeToken .GE, st) else (st.makeToken .GT, st)
  else if c = '&' then (st.makeToken .AMPERSAND, st)
  else if c = '|' then (st.makeToken .PIPE, st)
  else if c = '^' then (st.makeToken .CARET, st)
  else if c = ':' then
    let m := (st.matchc ':').1
    let st := (st.matchc ':').2
    if m then (st.makeToken .DOUBLE_COLON, st) else (st.makeToken .COLON, st)
  else st.errorToken "Unexpected character"

/-- `Lexer::scan_token`: inline whitespace, end-of-input DEDENT flushing and
the EOF sentinel, newline, identifiers/keywords, numbers, strings, the
(unreachable) f-string branch, the operator/punctuation switch
(`scanOperator`, with the `.` and `#` cases inline here — `.` may re-enter
`scan_number` and `#` re-enters `scan_token`; the switch cases are on
pairwise distinct characters, so their order is semantically free). -/
def scanToken : Nat → LexState → Token × LexState
  | 0, st => (Token.make_eof ⟨st.filename, st.line, st.column, st.current⟩, st)
  | fuel + 1, st0 =>
    let st := skipWhitespaceInline (fuel + 1) st0
    if st.isAtEnd then
      if 1 < st.indentStack.length then
        let st := { st with indentStack := st.indentStack.tail }
        (st.makeTokenWith .DEDENT "", st)
      else
        (Token.make_eof ⟨st.filename, st.line, st.column, st.current⟩, st)
    else
      let st := { st with start := st.current }
      let c := (st.advancec).1
      let st := (st.advancec).2
      if c = '\n' then
        (st.makeToken .NEWLINE, { st with atLineStart := true })
      else if isIdentStartChar c then scanIdentifier (fuel + 1) st
      else if isDigitChar c then scanNumber (fuel + 1) st
      else if c = '"' ∨ c = '\'' then scanString (fuel + 1) c st
      else if (c = 'f' ∨ c = 'F') ∧ (st.peekc = '"' ∨ st.peekc = '\'') then
        scanFString (fuel + 1) st
      else if c = '.' then
        let m1 := (st.matchc '.').1
        let st := (st.matchc '.').2
        if m1 then
          let m2 := (st.matchc '.').1
          let st := (st.matchc '.').2
          if m2 then (st.makeToken .TRIPLE_DOT, st) else (st.makeToken .DOUBLE_DOT, st)
        else if isDigitChar st.peekc then scanNumber (fuel + 1) st
        else (st.makeToken .DOT, st)
      else if c = '#' then
        let st := skipLineComment (fuel + 1) st
        scanToken fuel st
      else scanOperator c st

/-- `Lexer::next_token`: serve the peek cache, flush pending DEDENTs, run
the indentation handler at line starts (whose INDENT signal is already gone
by the time control returns here — see `handleIndentation`), then scan. -/
def nextToken (fuel : Nat) (st : LexState) : Token × LexState :=
  if st.hasPeeked then (st.peeked, { st with hasPeeked := false })
  else if 0 < st.pendingDedents then
    let st := { st with pendingDedents := st.pendingDedents - 1 }
    (st.makeTokenWith .DEDENT "", st)
  else if st.atLineStart then
    let st := handleIndentation fuel st
    if 0 < st.pendingDedents then
      let st := { st with pendingDedents := st.pendingDedents - 1 }
      (st.makeTokenWith .DEDENT "", st)
    else scanToken fuel st
  else scanToken fuel st

/-- `Lexer::peek_token`. -/
def peekToken (fuel : Nat) (st : LexState) : Token × LexState :=
  if st.hasPeeked then (st.peeked, st)
  else
    let (t, st) := nextToken fuel st
    (t, { st with hasPeeked := true, peeked := t })

/-- The collection loop of `Lexer::tokenize_all`: call `next_token` until
the EOF sentinel (which is included in the stream). -/
def tokenizeAllLoop : Nat → LexState → List Token × LexState
  | 0, st => ([], st)
  | fuel + 1, st =>
      let t := (nextToken (fuel + 1) st).1
      let st2 := (nextToken (fuel + 1) st).2
      if t.type = .EOF_TOKEN then ([t], st2)
      else
        (t :: (tokenizeAllLoop fuel st2).1, (tokenizeAllLoop fuel st2).2)

/-- `Lexer(source).tokenize_all()` with the default `"<input>"` filename. -/
def tokenizeAll (fuel : Nat) (src : String) : List Token × LexState :=
  tokenizeAllLoop fuel (mkLexer src.data "<input>")


/-- The invariant of spec section 8: the source text at a token's byte offset
matches its lexeme. -/
def sliceOk (src : List Char) (t : Token) : Prop :=
  String.mk (listExtract src t.loc.offset (t.loc.offset + t.lexeme.length)) = t.lexeme

/-- A token the lexer may legitimately place in the stream: either its
lexeme is the source slice at its offset, or it is a string token (decoded
value) or an error token (message). -/
def GoodTok (src : List Char) (t : Token) : Prop :=
  sliceOk src t ∨ t.type = .STRING ∨ t.type = .ERROR

-- ===== DEFINITIONS END / THEOREMS BEGIN =====


/-- Boolean equality is symmetric for lawful `BEq` instances. -/
theorem beqComm {α : Type} [BEq α] [LawfulBEq α] (a b : α) : (a == b) = (b == a) := by
  by_cases h : a = b
  · subst h; rfl
  · have h1 : (a == b) = false := beq_eq_false_iff_ne.mpr h
    have h2 : (b == a) = false := beq_eq_false_iff_ne.mpr (Ne.symm h)
    rw [h1, h2]

mutual

/-- The `equals` relation is reflexive. -/
theorem tequals_refl : ∀ t : Ty, tequals t t = true
  | .prim k n => by simp [tequals, Ty.kind, Ty.tyname]
  | .array e s => by simp [tequals, tequals_refl e]
  | .list e => by simp [tequals, tequals_refl e]
  | .dict k v => by simp [tequals, tequals_refl k, tequals_refl v]
  | .tuple es => by simp [tequals, tequalsList_refl es]
  | .fn ps r a => by simp [tequals, tequals_refl r, tequalsList_refl ps]
  | .ref i m => by simp [tequals, tequals_refl i]
  | .optional i => by simp [tequals, tequals_refl i]
  | .res o e => by simp [tequals, tequals_refl o, tequals_refl e]
  | .strct n _ _ => by simp [tequals]
  | .cls n _ _ _ => by simp [tequals]
  | .enum n _ _ => by simp [tequals]
  | .trait n _ => by simp [tequals]
  | .generic n _ => by simp [tequals]
  | .tyvar i none => by simp [tequals]
  | .tyvar i (some t) => by simp [tequals, tequals_refl t]

/-- Element-wise `equals` is reflexive. -/
theorem tequalsList_refl : ∀ ts : List Ty, tequalsList ts ts = true
  | [] => rfl
  | t :: ts => by simp [tequalsList, tequals_refl t, tequalsList_refl ts]

end



mutual

/-- The `equals` relation is symmetric on the values the program constructs
(base-class instances carry only primitive/`Never`/`Unknown` kinds, which are
disjoint from the kinds of the derived classes). -/
theorem tequals_symm : ∀ a b : Ty, tequals a b = tequals b a
  | .prim k n, b => by
      cases b
      case prim k2 n2 =>
        show (k.toKind == k2.toKind && n == n2) = (k2.toKind == k.toKind && n2 == n)
        rw [beqComm k.toKind, beqComm n]
      all_goals (cases k <;> rfl)
  | .array e s, b => by
      cases b
      case prim k2 n2 => cases k2 <;> rfl
      case array e2 s2 =>
        show (tequals e e2 && s == s2) = (tequals e2 e && s2 == s)
        rw [tequals_symm e e2, beqComm s]
      all_goals rfl
  | .list e, b => by
      cases b
      case prim k2 n2 => cases k2 <;> rfl
      case list e2 =>
        show tequals e e2 = tequals e2 e
        exact tequals_symm e e2
      all_goals rfl
  | .dict k v, b => by
      cases b
      case prim k2 n2 => cases k2 <;> rfl
      case dict k2 v2 =>
        show (tequals k k2 && tequals v v2) = (tequals k2 k && tequals v2 v)
        rw [tequals_symm k k2, tequals_symm v v2]
      all_goals rfl
  | .tuple es, b => by
      cases b
      case prim k2 n2 => cases k2 <;> rfl
      case tuple es2 =>
        show (es.length == es2.length && tequalsList es es2)
           = (es2.length == es.length && tequalsList es2 es)
        rw [tequalsList_symm es es2, beqComm es.length]
      all_goals rfl
  | .fn ps r a, b => by
      cases b
      case prim k2 n2 => cases k2 <;> rfl
      case fn ps2 r2 a2 =>
        show (ps.length == ps2.length && tequals r r2 && tequalsList ps ps2 && a == a2)
           = (ps2.length == ps.length && tequals r2 r && tequalsList ps2 ps && a2 == a)
        rw [tequals_symm r r2, tequalsList_symm ps ps2, beqComm ps.length, beqComm a]
      all_goals rfl
  | .ref i m, b => by
      cases b
      case prim k2 n2 => cases k2 <;> rfl
      case ref i2 m2 =>
        show (tequals i i2 && m == m2) = (tequals i2 i && m2 == m)
        rw [tequals_symm i i2, beqComm m]
      all_goals rfl
  | .optional i, b => by
      cases b
      case prim k2 n2 => cases k2 <;> rfl
      case optional i2 =>
        show tequals i i2 = tequals i2 i
        exact tequals_symm i i2
      all_goals rfl
  | .res o e, b => by
      cases b
      case prim k2 n2 => cases k2 <;> rfl
      case res o2 e2 =>
        show (tequals o o2 && tequals e e2) = (tequals o2 o && tequals e2 e)
        rw [tequals_symm o o2, tequals_symm e e2]
      all_goals rfl
  | .strct n f tp, b => by
      cases b
      case prim k2 n2 => cases k2 <;> rfl
      case strct n2 f2 tp2 =>
        show (n == n2) = (n2 == n)
        exact beqComm n n2
      all_goals rfl
  | .cls n f bc tp, b => by
      cases b
      case prim k2 n2 => cases k2 <;> rfl
      case cls n2 f2 bc2 tp2 =>
        show (n == n2) = (n2 == n)
        exact beqComm n n2
      all_goals rfl
  | .enum n v tp, b => by
      cases b
      case prim k2 n2 => cases k2 <;> rfl
      case enum n2 v2 tp2 =>
        show (n == n2) = (n2 == n)
        exact beqComm n n2
      all_goals rfl
  | .trait n tp, b => by
      cases b
      case prim k2 n2 => cases k2 <;> rfl
      case trait n2 tp2 =>
        show (n == n2) = (n2 == n)
        exact beqComm n n2
      all_goals rfl
  | .generic n c, b => by
      cases b
      case prim k2 n2 => cases k2 <;> rfl
      case generic n2 c2 =>
        show (n == n2) = (n2 == n)
        exact beqComm n n2
      all_goals rfl
  | .tyvar i r, b => by
      cases b
      case prim k2 n2 => cases k2 <;> rfl
      case tyvar i2 r2 =>
        cases r with
        | none =>
            cases r2 with
            | none => exact beqComm i i2
            | some t2 => exact beqComm i i2
        | some t =>
            cases r2 with
            | none => exact beqComm i i2
            | some t2 => exact tequals_symm t t2
      all_goals rfl

/-- Element-wise `equals` is symmetric. -/
theorem tequalsList_symm : ∀ xs ys : List Ty, tequalsList xs ys = tequalsList ys xs
  | [], [] => rfl
  | [], _ :: _ => rfl
  | _ :: _, [] => rfl
  | x :: xs, y :: ys => by
      show (tequals x y && tequalsList xs ys) = (tequals y x && tequalsList ys xs)
      rw [tequals_symm x y, tequalsList_symm xs ys]

end

/-- An integer semantic type is never a float (its kind index lies in the
integer band of the enumeration). -/
theorem is_integer_not_float (t : Ty) (h : t.is_integer = true) : t.is_float = false := by
  cases hk : t.kind <;>
    simp_all [Ty.is_integer, Ty.is_float, TypeKind.toIdx, hk]

/-- An integer semantic type is a primitive (its kind index lies inside the
`Void`–`String` band of the enumeration). -/
theorem is_integer_is_primitive (t : Ty) (h : t.is_integer = true) : t.is_primitive = true := by
  cases hk : t.kind <;>
    simp_all [Ty.is_integer, Ty.is_primitive, TypeKind.toIdx, hk]




/-- C2 counterexample: the claim says `is_assignable` returns `false` for an
integer source and a strictly narrower integer target, for example `i64` to
`i8`; the code returns `true` for that pair (the integer branch accepts every
integer pair unconditionally). -/
theorem is_assignable_i64_i8_counterexample : is_assignable i64_type i8_type = true := rfl

/-- C2 (amended): `is_assignable(from, to)` returns `true` exactly when `from`
and `to` are equal, `from` is `never`, `from` is an integer type and `to` is
any integer type (wider or strictly narrower alike), `from` is an integer
type and `to` is a float type, `to` is an optional whose inner type `from`
is assignable to, or `to` is a reference (requiring an exact inner match
when mutable, inner assignability otherwise); it returns `false` in all
cases outside these. -/
theorem is_assignable_characterization : ∀ frm toTy : Ty,
    is_assignable frm toTy = true ↔
      (tequals frm toTy = true ∨
       frm.kind = .Never ∨
       (frm.is_integer = true ∧ toTy.is_integer = true) ∨
       (frm.is_integer = true ∧ toTy.is_float = true) ∨
       (∃ inner, toTy = .optional inner ∧ is_assignable frm inner = true) ∨
       (∃ inner, toTy = .ref inner true ∧ tequals frm inner = true) ∨
       (∃ inner, toTy = .ref inner false ∧ is_assignable frm inner = true)) := by
  intro frm toTy
  constructor
  · intro h
    rw [is_assignable.eq_def] at h
    by_cases h1 : tequals frm toTy = true
    · exact Or.inl h1
    rw [if_neg h1] at h
    by_cases h2 : (frm.kind == TypeKind.Never) = true
    · exact Or.inr (Or.inl (by simpa using h2))
    rw [if_neg h2] at h
    by_cases h3 : (frm.is_integer && toTy.is_integer) = true
    · exact Or.inr (Or.inr (Or.inl (by simpa using h3)))
    rw [if_neg h3] at h
    by_cases h4 : (frm.is_integer && toTy.is_float) = true
    · exact Or.inr (Or.inr (Or.inr (Or.inl (by simpa using h4))))
    rw [if_neg h4] at h
    cases toTy with
    | optional inner =>
        exact Or.inr (Or.inr (Or.inr (Or.inr (Or.inl ⟨inner, rfl, h⟩))))
    | ref inner m =>
        cases m with
        | true =>
            exact Or.inr (Or.inr (Or.inr (Or.inr (Or.inr (Or.inl
              ⟨inner, rfl, by simpa using h⟩)))))
        | false =>
            exact Or.inr (Or.inr (Or.inr (Or.inr (Or.inr (Or.inr
              ⟨inner, rfl, by simpa using h⟩)))))
    | prim k n => exact absurd h (by simp)
    | array e s => exact absurd h (by simp)
    | list e => exact absurd h (by simp)
    | dict k v => exact absurd h (by simp)
    | tuple es => exact absurd h (by simp)
    | fn ps r a => exact absurd h (by simp)
    | res o e => exact absurd h (by simp)
    | strct n f tp => exact absurd h (by simp)
    | cls n f bc tp => exact absurd h (by simp)
    | enum n v tp => exact absurd h (by simp)
    | trait n tp => exact absurd h (by simp)
    | generic n c => exact absurd h (by simp)
    | tyvar i r => exact absurd h (by simp)
  · intro h
    rw [is_assignable.eq_def]
    by_cases h1 : tequals frm toTy = true
    · rw [if_pos h1]
    rw [if_neg h1]
    by_cases h2 : (frm.kind == TypeKind.Never) = true
    · rw [if_pos h2]
    rw [if_neg h2]
    by_cases h3 : (frm.is_integer && toTy.is_integer) = true
    · rw [if_pos h3]
    rw [if_neg h3]
    by_cases h4 : (frm.is_integer && toTy.is_float) = true
    · rw [if_pos h4]
    rw [if_neg h4]
    rcases h with h | h | h | h | ⟨inner, rfl, hi⟩ | ⟨inner, rfl, hi⟩ | ⟨inner, rfl, hi⟩
    · exact absurd h h1
    · exact absurd (show (frm.kind == TypeKind.Never) = true by simpa using h) h2
    · exact absurd (show (frm.is_integer && toTy.is_integer) = true by
        simpa using And.intro h.1 h.2) h3
    · exact absurd (show (frm.is_integer && toTy.is_float) = true by
        simpa using And.intro h.1 h.2) h4
    · exact hi
    · simpa using hi
    · simpa using hi

/-- Witness for the amended C2 characterization at concrete inputs: `i64` is
assignable to `i8` precisely through the integer clause. -/
theorem is_assignable_characterization_witness :
    tequals i64_type i8_type = true ∨
    Ty.kind i64_type = .Never ∨
    (Ty.is_integer i64_type = true ∧ Ty.is_integer i8_type = true) ∨
    (Ty.is_integer i64_type = true ∧ Ty.is_float i8_type = true) ∨
    (∃ inner, i8_type = .optional inner ∧ is_assignable i64_type inner = true) ∨
    (∃ inner, i8_type = .ref inner true ∧ tequals i64_type inner = true) ∨
    (∃ inner, i8_type = .ref inner false ∧ is_assignable i64_type inner = true) :=
  (is_assignable_characterization i64_type i8_type).mp rfl

/-- C9: `common_type` is reflexive (`common_type(a, a)` returns `a` itself),
commutative up to the type-equality relation the code itself uses, and maps
every pair of integer primitives to an integer primitive. -/
theorem common_type_laws :
    (∀ a : Ty, common_type a a = a) ∧
    (∀ a b : Ty, tequals (common_type a b) (common_type b a) = true) ∧
    (∀ a b : Ty, a.is_integer = true → b.is_integer = true →
      (common_type a b).is_integer = true ∧ (common_type a b).is_primitive = true) := by
  refine ⟨?_, ?_, ?_⟩
  · intro a
    rw [common_type, if_pos (tequals_refl a)]
  · intro a b
    by_cases h : tequals a b = true
    · have h2 : tequals b a = true := by rw [tequals_symm b a]; exact h
      rw [common_type, if_pos h, common_type, if_pos h2]
      exact h
    · have h2 : ¬ tequals b a = true := by rw [tequals_symm b a]; exact h
      rw [common_type, if_neg h, common_type, if_neg h2]
      rw [Bool.or_comm b.is_float a.is_float, Bool.or_comm (b.kind == .Float64),
        Bool.and_comm b.is_integer a.is_integer]
      exact tequals_refl _
  · intro a b ha hb
    by_cases h : tequals a b = true
    · rw [common_type, if_pos h]
      exact ⟨ha, is_integer_is_primitive a ha⟩
    · rw [common_type, if_neg h]
      rw [is_integer_not_float a ha, is_integer_not_float b hb]
      simp only [Bool.or_self, Bool.false_eq_true, if_false, ha, hb, Bool.and_self, if_true]
      exact ⟨rfl, rfl⟩

/-- Witness for C9 at concrete integer primitives `i32` and `u8`. -/
theorem common_type_laws_witness :
    Ty.is_integer i32_type = true ∧ Ty.is_integer u8_type = true ∧
    ((common_type i32_type u8_type).is_integer = true ∧
     (common_type i32_type u8_type).is_primitive = true) :=
  ⟨rfl, rfl, common_type_laws.2.2 i32_type u8_type rfl rfl⟩

end Ax

namespace Ax

theorem length_listExtract (s : List Char) (a b : Nat) :
    (listExtract s a b).length = min (b - a) (s.length - a) := by
  simp [listExtract]

/-- Re-slicing at the produced length reproduces the slice: the core of the
lexeme/offset invariant for slice-built tokens. -/
theorem listExtract_self (s : List Char) (a b : Nat) :
    listExtract s a (a + (listExtract s a b).length) = listExtract s a b := by
  simp only [listExtract, Nat.add_sub_cancel_left, List.length_take, List.length_drop]
  rw [List.take_eq_take]
  simp [Nat.min_assoc]

theorem sliceOk_of_slice (src : List Char) (a b : Nat) (t : Token)
    (hl : t.lexeme = String.mk (listExtract src a b)) (ho : t.loc.offset = a) :
    sliceOk src t := by
  unfold sliceOk
  rw [hl, ho]
  have hlen : (String.mk (listExtract src a b)).length = (listExtract src a b).length := rfl
  rw [hlen, listExtract_self]

theorem sliceOk_of_empty (src : List Char) (t : Token) (h : t.lexeme = "") :
    sliceOk src t := by
  unfold sliceOk
  rw [h]
  have : ∀ o : Nat, listExtract src o (o + ("" : String).length) = [] := by
    intro o
    simp [listExtract]
  rw [this]

theorem goodTok_makeToken {src : List Char} (st : LexState) (ty : TokenType)
    (h : st.source = src) : GoodTok src (st.makeToken ty) := by
  subst h
  exact Or.inl (sliceOk_of_slice st.source st.start st.current _ rfl rfl)

theorem goodTok_empty {src : List Char} (t : Token) (h : t.lexeme = "") : GoodTok src t :=
  Or.inl (sliceOk_of_empty src t h)

theorem goodTok_string {src : List Char} (t : Token) (h : t.type = .STRING) : GoodTok src t :=
  Or.inr (Or.inl h)

theorem goodTok_error {src : List Char} (t : Token) (h : t.type = .ERROR) : GoodTok src t :=
  Or.inr (Or.inr h)

theorem goodTok_errorToken {src : List Char} (st : LexState) (msg : String) :
    GoodTok src (st.errorToken msg).1 :=
  goodTok_error _ rfl

end Ax

namespace Ax

@[simp] theorem source_advancec (st : LexState) : (st.advancec).2.source = st.source := by
  simp only [LexState.advancec]
  split <;> rfl

@[simp] theorem hasPeeked_advancec (st : LexState) :
    (st.advancec).2.hasPeeked = st.hasPeeked := by
  simp only [LexState.advancec]
  split <;> rfl

@[simp] theorem source_matchc (st : LexState) (c : Char) :
    (st.matchc c).2.source = st.source := by
  simp only [LexState.matchc]
  split
  · rfl
  · split <;> simp

@[simp] theorem hasPeeked_matchc (st : LexState) (c : Char) :
    (st.matchc c).2.hasPeeked = st.hasPeeked := by
  simp only [LexState.matchc]
  split
  · rfl
  · split <;> simp

@[simp] theorem source_errorToken (st : LexState) (msg : String) :
    (st.errorToken msg).2.source = st.source := rfl

@[simp] theorem hasPeeked_errorToken (st : LexState) (msg : String) :
    (st.errorToken msg).2.hasPeeked = st.hasPeeked := rfl


@[simp] theorem source_skipLineComment : ∀ (fuel : Nat) (st : LexState),
    (skipLineComment fuel st).source = st.source
  | 0, st => rfl
  | fuel + 1, st => by
      simp only [skipLineComment]
      repeat' split
      all_goals first | rfl | simp [source_skipLineComment fuel]

@[simp] theorem hasPeeked_skipLineComment : ∀ (fuel : Nat) (st : LexState),
    (skipLineComment fuel st).hasPeeked = st.hasPeeked
  | 0, st => rfl
  | fuel + 1, st => by
      simp only [skipLineComment]
      repeat' split
      all_goals first | rfl | simp [hasPeeked_skipLineComment fuel]

@[simp] theorem source_advanceWhile : ∀ (fuel : Nat) (p : Char → Bool) (st : LexState),
    (advanceWhile fuel p st).source = st.source
  | 0, _, st => rfl
  | fuel + 1, p, st => by
      simp only [advanceWhile]
      repeat' split
      all_goals first | rfl | simp [source_advanceWhile fuel]

@[simp] theorem hasPeeked_advanceWhile : ∀ (fuel : Nat) (p : Char → Bool) (st : LexState),
    (advanceWhile fuel p st).hasPeeked = st.hasPeeked
  | 0, _, st => rfl
  | fuel + 1, p, st => by
      simp only [advanceWhile]
      repeat' split
      all_goals first | rfl | simp [hasPeeked_advanceWhile fuel]

@[simp] theorem source_countIndentLoop : ∀ (fuel acc : Nat) (st : LexState),
    (countIndentLoop fuel acc st).2.source = st.source
  | 0, _, st => rfl
  | fuel + 1, acc, st => by
      simp only [countIndentLoop]
      repeat' split
      all_goals first | rfl | simp [source_countIndentLoop fuel]

@[simp] theorem hasPeeked_countIndentLoop : ∀ (fuel acc : Nat) (st : LexState),
    (countIndentLoop fuel acc st).2.hasPeeked = st.hasPeeked
  | 0, _, st => rfl
  | fuel + 1, acc, st => by
      simp only [countIndentLoop]
      repeat' split
      all_goals first | rfl | simp [hasPeeked_countIndentLoop fuel]

@[simp] theorem source_skipWsLoop : ∀ (fuel : Nat) (st : LexState),
    (skipWsLoop fuel st).source = st.source
  | 0, st => rfl
  | fuel + 1, st => by
      simp only [skipWsLoop]
      repeat' split
      all_goals first | rfl | simp [source_skipWsLoop fuel]

@[simp] theorem hasPeeked_skipWsLoop : ∀ (fuel : Nat) (st : LexState),
    (skipWsLoop fuel st).hasPeeked = st.hasPeeked
  | 0, st => rfl
  | fuel + 1, st => by
      simp only [skipWsLoop]
      repeat' split
      all_goals first | rfl | simp [hasPeeked_skipWsLoop fuel]

@[simp] theorem source_skipWhitespaceInline (fuel : Nat) (st : LexState) :
    (skipWhitespaceInline fuel st).source = st.source := by
  simp [skipWhitespaceInline]

@[simp] theorem hasPeeked_skipWhitespaceInline (fuel : Nat) (st : LexState) :
    (skipWhitespaceInline fuel st).hasPeeked = st.hasPeeked := by
  simp [skipWhitespaceInline]

@[simp] theorem source_handleIndentLoop : ∀ (fuel : Nat) (st : LexState),
    (handleIndentLoop fuel st).source = st.source
  | 0, st => rfl
  | fuel + 1, st => by
      simp only [handleIndentLoop]
      repeat' split
      all_goals first | rfl | simp [source_handleIndentLoop fuel]

@[simp] theorem hasPeeked_handleIndentLoop : ∀ (fuel : Nat) (st : LexState),
    (handleIndentLoop fuel st).hasPeeked = st.hasPeeked
  | 0, st => rfl
  | fuel + 1, st => by
      simp only [handleIndentLoop]
      repeat' split
      all_goals first | rfl | simp [hasPeeked_handleIndentLoop fuel]

@[simp] theorem source_handleIndentation (fuel : Nat) (st : LexState) :
    (handleIndentation fuel st).source = st.source := by
  simp only [handleIndentation]
  repeat' split
  all_goals simp

@[simp] theorem hasPeeked_handleIndentation (fuel : Nat) (st : LexState) :
    (handleIndentation fuel st).hasPeeked = st.hasPeeked := by
  simp only [handleIndentation]
  repeat' split
  all_goals simp

end Ax

namespace Ax

@[simp] theorem source_scanIdentifier (fuel : Nat) (st : LexState) :
    (scanIdentifier fuel st).2.source = st.source := by
  simp only [scanIdentifier]
  repeat' split
  all_goals simp

@[simp] theorem hasPeeked_scanIdentifier (fuel : Nat) (st : LexState) :
    (scanIdentifier fuel st).2.hasPeeked = st.hasPeeked := by
  simp only [scanIdentifier]
  repeat' split
  all_goals simp

theorem goodTok_scanIdentifier {src : List Char} (fuel : Nat) (st : LexState)
    (h : st.source = src) : GoodTok src (scanIdentifier fuel st).1 := by
  subst h
  simp only [scanIdentifier]
  repeat' split
  all_goals (apply goodTok_makeToken; simp)

@[simp] theorem source_basedIntToken (st : LexState) (base : Nat) (msg : String) :
    (basedIntToken st base msg).2.source = st.source := by
  simp only [basedIntToken]
  repeat' split
  all_goals simp

@[simp] theorem hasPeeked_basedIntToken (st : LexState) (base : Nat) (msg : String) :
    (basedIntToken st base msg).2.hasPeeked = st.hasPeeked := by
  simp only [basedIntToken]
  repeat' split
  all_goals simp

theorem goodTok_basedIntToken {src : List Char} (st : LexState) (base : Nat) (msg : String)
    (h : st.source = src) : GoodTok src (basedIntToken st base msg).1 := by
  subst h
  simp only [basedIntToken]
  repeat' split
  all_goals first
    | exact goodTok_errorToken _ _
    | exact Or.inl (sliceOk_of_slice _ st.start st.current _ rfl rfl)

@[simp] theorem source_scanNumber (fuel : Nat) (st : LexState) :
    (scanNumber fuel st).2.source = st.source := by
  simp only [scanNumber]
  repeat' split
  all_goals simp

@[simp] theorem hasPeeked_scanNumber (fuel : Nat) (st : LexState) :
    (scanNumber fuel st).2.hasPeeked = st.hasPeeked := by
  simp only [scanNumber]
  repeat' split
  all_goals simp

theorem goodTok_slice_tok {src src2 : List Char} {a b : Nat} (t : Token)
    (hs : src2 = src) (hl : t.lexeme = String.mk (listExtract src2 a b))
    (ho : t.loc.offset = a) : GoodTok src t := by
  subst hs
  exact Or.inl (sliceOk_of_slice src2 a b t hl ho)

set_option maxHeartbeats 1000000 in
theorem goodTok_scanNumber {src : List Char} (fuel : Nat) (st : LexState)
    (h : st.source = src) : GoodTok src (scanNumber fuel st).1 := by
  subst h
  simp only [scanNumber]
  repeat' split
  all_goals first
    | exact goodTok_errorToken _ _
    | (apply goodTok_basedIntToken
       first | rfl | simp)
    | (refine goodTok_slice_tok _ ?_ rfl rfl
       first | rfl | simp)

end Ax

namespace Ax

set_option maxHeartbeats 1000000 in
theorem scanStringLoop_fail : ∀ (fuel : Nat) (q : Char) (tr : Bool) (v : List Char)
    (st : LexState) (t : Token) (st2 : LexState),
    scanStringLoop fuel q tr v st = .fail t st2 →
    t.type = .ERROR ∧ st2.source = st.source ∧ st2.hasPeeked = st.hasPeeked
  | 0, q, tr, v, st, t, st2 => by
      intro h
      exact StrScan.noConfusion h
  | fuel + 1, q, tr, v, st, t, st2 => by
      intro h
      simp only [scanStringLoop] at h
      repeat' split at h
      all_goals first
        | exact StrScan.noConfusion h
        | (injection h with h1 h2
           subst h1
           subst h2
           exact ⟨rfl, by simp, by simp⟩)
        | (rcases scanStringLoop_fail fuel _ _ _ _ _ _ h with ⟨he, hs, hp⟩
           refine ⟨he, ?_, ?_⟩
           · rw [hs]; simp
           · rw [hp]; simp)

set_option maxHeartbeats 1000000 in
theorem scanStringLoop_done : ∀ (fuel : Nat) (q : Char) (tr : Bool) (v : List Char)
    (st : LexState) (v2 : List Char) (c : Bool) (st2 : LexState),
    scanStringLoop fuel q tr v st = .done v2 c st2 →
    st2.source = st.source ∧ st2.hasPeeked = st.hasPeeked
  | 0, q, tr, v, st, v2, c, st2 => by
      intro h
      injection h with h1 h2 h3
      subst h3
      exact ⟨rfl, rfl⟩
  | fuel + 1, q, tr, v, st, v2, c, st2 => by
      intro h
      simp only [scanStringLoop] at h
      repeat' split at h
      all_goals first
        | exact StrScan.noConfusion h
        | (injection h with h1 h2 h3
           subst h3
           exact ⟨by simp, by simp⟩)
        | (rcases scanStringLoop_done fuel _ _ _ _ _ _ _ h with ⟨hs, hp⟩
           refine ⟨?_, ?_⟩
           · rw [hs]; simp
           · rw [hp]; simp)

set_option maxHeartbeats 1000000 in
@[simp] theorem source_scanString (fuel : Nat) (q : Char) (st : LexState) :
    (scanString fuel q st).2.source = st.source := by
  simp only [scanString]
  split
  next t2 st2 heq =>
    rcases scanStringLoop_fail _ _ _ _ _ _ _ heq with ⟨_, hs, _⟩
    simp [hs, apply_ite]
  next v2 closed st2 heq =>
    rcases scanStringLoop_done _ _ _ _ _ _ _ _ heq with ⟨hs, _⟩
    split <;> simp [hs, apply_ite]

set_option maxHeartbeats 1000000 in
@[simp] theorem hasPeeked_scanString (fuel : Nat) (q : Char) (st : LexState) :
    (scanString fuel q st).2.hasPeeked = st.hasPeeked := by
  simp only [scanString]
  split
  next t2 st2 heq =>
    rcases scanStringLoop_fail _ _ _ _ _ _ _ heq with ⟨_, _, hp⟩
    simp [hp, apply_ite]
  next v2 closed st2 heq =>
    rcases scanStringLoop_done _ _ _ _ _ _ _ _ heq with ⟨_, hp⟩
    split <;> simp [hp, apply_ite]

set_option maxHeartbeats 1000000 in
theorem goodTok_scanString {src : List Char} (fuel : Nat) (q : Char) (st : LexState)
    (h : st.source = src) : GoodTok src (scanString fuel q st).1 := by
  subst h
  simp only [scanString]
  split
  next t2 st2 heq =>
    exact goodTok_error _ (scanStringLoop_fail _ _ _ _ _ _ _ heq).1
  next v2 closed st2 heq =>
    split
    · exact goodTok_string _ rfl
    · exact goodTok_errorToken _ _

@[simp] theorem source_scanFString (fuel : Nat) (st : LexState) :
    (scanFString fuel st).2.source = st.source := by
  simp [scanFString]

@[simp] theorem hasPeeked_scanFString (fuel : Nat) (st : LexState) :
    (scanFString fuel st).2.hasPeeked = st.hasPeeked := by
  simp [scanFString]

theorem goodTok_scanFString {src : List Char} (fuel : Nat) (st : LexState)
    (h : st.source = src) : GoodTok src (scanFString fuel st).1 := by
  subst h
  simp only [scanFString]
  apply goodTok_scanString
  simp


end Ax

namespace Ax

theorem snd_source_ite (c : Prop) [Decidable c] (p q : Token × LexState) (src : List Char)
    (hp : p.2.source = src) (hq : q.2.source = src) : (ite c p q).2.source = src := by
  split
  · exact hp
  · exact hq

theorem snd_hasPeeked_ite (c : Prop) [Decidable c] (p q : Token × LexState) (b : Bool)
    (hp : p.2.hasPeeked = b) (hq : q.2.hasPeeked = b) : (ite c p q).2.hasPeeked = b := by
  split
  · exact hp
  · exact hq

theorem goodTok_fst_ite (c : Prop) [Decidable c] (p q : Token × LexState) (src : List Char)
    (hp : GoodTok src p.1) (hq : GoodTok src q.1) : GoodTok src (ite c p q).1 := by
  split
  · exact hp
  · exact hq

set_option maxHeartbeats 1000000 in
@[simp] theorem source_scanOperator (c : Char) (st : LexState) :
    (scanOperator c st).2.source = st.source := by
  simp only [scanOperator]
  repeat' apply snd_source_ite
  all_goals simp

set_option maxHeartbeats 1000000 in
@[simp] theorem hasPeeked_scanOperator (c : Char) (st : LexState) :
    (scanOperator c st).2.hasPeeked = st.hasPeeked := by
  simp only [scanOperator]
  repeat' apply snd_hasPeeked_ite
  all_goals simp

set_option maxHeartbeats 1000000 in
theorem goodTok_scanOperator {src : List Char} (c : Char) (st : LexState)
    (h : st.source = src) : GoodTok src (scanOperator c st).1 := by
  subst h
  simp only [scanOperator]
  repeat' apply goodTok_fst_ite
  all_goals dsimp only
  all_goals first
    | exact goodTok_makeToken _ _ (by simp)
    | exact goodTok_error _ rfl

theorem goodTok_makeTokenWith_empty {src : List Char} (st : LexState) (ty : TokenType) :
    GoodTok src (st.makeTokenWith ty "") :=
  goodTok_empty _ rfl

theorem goodTok_make_eof {src : List Char} (loc : SourceLocation) :
    GoodTok src (Token.make_eof loc) :=
  goodTok_empty _ rfl

seal scanIdentifier scanNumber scanString scanFString scanOperator
seal skipWhitespaceInline skipLineComment
seal LexState.makeToken LexState.makeTokenWith LexState.errorToken Token.make_eof

set_option maxHeartbeats 2000000 in
@[simp] theorem source_scanToken : ∀ (fuel : Nat) (st : LexState),
    (scanToken fuel st).2.source = st.source
  | 0, st => rfl
  | fuel + 1, st => by
      simp only [scanToken]
      set stA := skipWhitespaceInline (fuel + 1) st with hA
      repeat' apply snd_source_ite
      all_goals dsimp only
      all_goals first | rfl | simp [hA, source_scanToken fuel]

set_option maxHeartbeats 2000000 in
@[simp] theorem hasPeeked_scanToken : ∀ (fuel : Nat) (st : LexState),
    (scanToken fuel st).2.hasPeeked = st.hasPeeked
  | 0, st => rfl
  | fuel + 1, st => by
      simp only [scanToken]
      set stA := skipWhitespaceInline (fuel + 1) st with hA
      repeat' apply snd_hasPeeked_ite
      all_goals dsimp only
      all_goals first | rfl | simp [hA, hasPeeked_scanToken fuel]

set_option maxHeartbeats 2000000 in
theorem goodTok_scanToken : ∀ (fuel : Nat) (st : LexState) {src : List Char},
    st.source = src → GoodTok src (scanToken fuel st).1
  | 0, st, src, h => goodTok_make_eof _
  | fuel + 1, st, src, h => by
      subst h
      simp only [scanToken]
      set stA := skipWhitespaceInline (fuel + 1) st with hA
      repeat' apply goodTok_fst_ite
      all_goals dsimp only
      all_goals first
        | exact goodTok_makeTokenWith_empty _ _
        | exact goodTok_make_eof _
        | exact goodTok_makeToken _ _ (by simp [hA])
        | exact goodTok_scanIdentifier _ _ (by simp [hA])
        | exact goodTok_scanNumber _ _ (by simp [hA])
        | exact goodTok_scanString _ _ _ (by simp [hA])
        | exact goodTok_scanFString _ _ (by simp [hA])
        | exact goodTok_scanOperator _ _ (by simp [hA])
        | exact goodTok_scanToken fuel _ (by simp [hA])

@[simp] theorem source_nextToken (fuel : Nat) (st : LexState) :
    (nextToken fuel st).2.source = st.source := by
  simp only [nextToken]
  repeat' apply snd_source_ite
  all_goals simp

/-- `next_token` always leaves the peek cache empty: it either consumes it
or never fills it. -/
theorem hasPeeked_nextToken (fuel : Nat) (st : LexState) :
    (nextToken fuel st).2.hasPeeked = false := by
  simp only [nextToken]
  split
  · rfl
  · next hpk =>
    have hb : st.hasPeeked = false := by
      revert hpk; cases st.hasPeeked <;> simp
    repeat' apply snd_hasPeeked_ite
    all_goals simp [hb]

theorem goodTok_nextToken {src : List Char} (fuel : Nat) (st : LexState)
    (hs : st.source = src) (hp : st.hasPeeked = false) :
    GoodTok src (nextToken fuel st).1 := by
  subst hs
  simp only [nextToken]
  rw [if_neg (by simp [hp])]
  repeat' apply goodTok_fst_ite
  all_goals dsimp only
  all_goals first
    | exact goodTok_makeTokenWith_empty _ _
    | exact goodTok_scanToken fuel _ (by simp)

/-- Every token collected by the `tokenize_all` loop is good: its lexeme is
the source slice at its offset unless it is a string or error token. -/
theorem goodTok_tokenizeAllLoop : ∀ (fuel : Nat) (st : LexState) {src : List Char},
    st.source = src → st.hasPeeked = false →
    ∀ t ∈ (tokenizeAllLoop fuel st).1, GoodTok src t
  | 0, _, _, _, _ => by simp [tokenizeAllLoop]
  | fuel + 1, st, src, hs, hp => by
      simp only [tokenizeAllLoop]
      split
      · intro t ht
        simp only [List.mem_singleton] at ht
        subst ht
        exact goodTok_nextToken _ _ hs hp
      · intro t ht
        simp only [List.mem_cons] at ht
        rcases ht with rfl | ht
        · exact goodTok_nextToken _ _ hs hp
        · exact goodTok_tokenizeAllLoop fuel _ (by simp [hs])
            (hasPeeked_nextToken _ _) t ht

unseal scanIdentifier scanNumber scanString scanFString scanOperator
unseal skipWhitespaceInline skipLineComment
unseal LexState.makeToken LexState.makeTokenWith LexState.errorToken Token.make_eof

theorem goodTok_tokenizeAll (fuel : Nat) (src : String) :
    ∀ t ∈ (tokenizeAll fuel src).1, GoodTok src.data t := by
  intro t ht
  exact goodTok_tokenizeAllLoop fuel _ rfl rfl t ht

end Ax
